import Mathlib

/-!
Verification of the QP image container codec (`src/main.rs`).

The codec is shallowly embedded: byte streams are `List Nat` (each element a
byte value), the external Brotli compressor is an abstract function parameter
(`compress : List Nat → List Nat`, `decompress : List Nat → Option (List Nat)`,
`none` modelling a decompression failure), and the external raster codec is
abstracted as the raw RGBA8 buffer it produces.  The pure core of
`encode_image` / `decode_image` — header assembly, header validation, buffer
reconstruction and the channel branch — is translated directly from the source.
-/

namespace QP

/-- Byte values of the magic constant `b"QPIM"` (`src/main.rs:37`). -/
def MAGIC : List Nat := [81, 80, 73, 77]

/-- The compression-method tag for Brotli (`src/main.rs:38`). -/
def COMPRESSION_METHOD_BROTLI : Nat := 1

/-- Big-endian byte encoding of a `u32`, as produced by `u32::to_be_bytes`.
Each byte is reduced mod 256; for `w < 2^32` the first byte needs no
reduction. -/
def toBe32 (w : Nat) : List Nat :=
  [w / 16777216 % 256, w / 65536 % 256, w / 256 % 256, w % 256]

/-- Big-endian decoding of four bytes into a `u32` value, as done by
`u32::from_be_bytes` (`src/main.rs:114-115`). -/
def fromBe32 (a b c d : Nat) : Nat :=
  ((a * 256 + b) * 256 + c) * 256 + d

/-- Output formats recognised by `decode_image` (`image::ImageFormat`
restricted to the variants the match at `src/main.rs:158-165` can produce). -/
inductive ImageFormat
  | png | jpeg | bmp | gif | tiff | ico | tga | webp
deriving DecidableEq

/-- The pixel-buffer result of decoding, mirroring the two
`image::DynamicImage` variants constructed at `src/main.rs:143-148`.  The
`data` field is the full backing container, exactly as `ImageBuffer::from_raw`
keeps it. -/
inductive DynamicImage
  | imageRgb8 (width height : Nat) (data : List Nat)
  | imageRgba8 (width height : Nat) (data : List Nat)
deriving DecidableEq

/-- Rust's `slice::chunks(4)`: split a byte list into consecutive groups of 4,
the last group possibly shorter (`src/main.rs:179`). -/
def chunks4 : List Nat → List (List Nat)
  | [] => []
  | [a] => [[a]]
  | [a, b] => [[a, b]]
  | [a, b, c] => [[a, b, c]]
  | a :: b :: c :: d :: t => [a, b, c, d] :: chunks4 t

/-- Rust's `flat_map(|chunk| chunk.iter().take(3))` applied to the chunk list
(`src/main.rs:180-182`). -/
def flatMapTake3 : List (List Nat) → List Nat
  | [] => []
  | chunk :: rest => chunk.take 3 ++ flatMapTake3 rest

/-- Translation of `convert_rgba_to_rgb` (`src/main.rs:177-183`): group the
input into 4-byte chunks and keep the first 3 bytes of each chunk. -/
def convert_rgba_to_rgb (rgba_data : List Nat) : List Nat :=
  flatMapTake3 (chunks4 rgba_data)

/-- Translation of `image::ImageBuffer::from_raw` for a pixel type with
`channels` 8-bit samples: it succeeds exactly when the container holds at
least `width * height * channels` samples, and keeps the whole container. -/
def imageBufferFromRaw (channels width height : Nat) (buf : List Nat) :
    Option (List Nat) :=
  if width * height * channels ≤ buf.length then some buf else none

/-- The 14-byte QP header assembled by `encode_image` (`src/main.rs:85-90`):
magic, big-endian width, big-endian height, channels byte, method byte. -/
def qpHeader (width height channels compression_method : Nat) : List Nat :=
  MAGIC ++ toBe32 width ++ toBe32 height ++ [channels, compression_method]

/-- Pure core of `encode_image` (`src/main.rs:60-99`): given the RGBA8 buffer
the raster codec produced for the input image, the output byte stream is the
header (channels fixed at 4, method 1) followed by the compressed pixel
data. -/
def encode_image (width height : Nat) (pixel_data : List Nat)
    (compress : List Nat → List Nat) : List Nat :=
  qpHeader width height 4 COMPRESSION_METHOD_BROTLI ++ compress pixel_data

/-- Pure core of `decode_image` (`src/main.rs:102-150`), stopping after the
channel branch: header read and validation, payload decompression, buffer
reconstruction, channel branch.  Error strings are the ones in the source. -/
def decode_image_pixels (file : List Nat)
    (decompress : List Nat → Option (List Nat)) : Except String DynamicImage :=
  if file.length < 14 then
    .error "failed to fill whole buffer"
  else
    let header := file.take 14
    if header.take 4 ≠ MAGIC then
      .error "Invalid QP image file: Incorrect magic number."
    else
      let width := fromBe32 (header.getD 4 0) (header.getD 5 0)
        (header.getD 6 0) (header.getD 7 0)
      let height := fromBe32 (header.getD 8 0) (header.getD 9 0)
        (header.getD 10 0) (header.getD 11 0)
      let channels := header.getD 12 0
      let compression_method := header.getD 13 0
      if compression_method ≠ COMPRESSION_METHOD_BROTLI then
        .error ("Unsupported compression method: " ++ toString compression_method)
      else
        let compressed_data := file.drop 14
        match decompress compressed_data with
        | none => .error "Brotli decompression failed"
        | some decompressed_data =>
          match imageBufferFromRaw 4 width height decompressed_data with
          | none => .error "Failed to reconstruct image from pixel data."
          | some img =>
            match channels with
            | 3 =>
              match imageBufferFromRaw 3 width height
                  (convert_rgba_to_rgb decompressed_data) with
              | none => .error "Failed to create RGB image."
              | some rgb_img => .ok (.imageRgb8 width height rgb_img)
            | 4 => .ok (.imageRgba8 width height img)
            | _ => .error "Unsupported number of channels."

/-- Output-format selection of `decode_image` (`src/main.rs:153-167`): the
destination path's extension (already extracted, as a character list) is
lowercased and matched against the fixed extension set; anything else,
including a missing extension, is the unsupported-format error.  The function
takes only the extension — file contents play no part in the choice. -/
def output_format (ext : Option (List Char)) : Except String ImageFormat :=
  match ext.map (fun s => s.map Char.toLower) with
  | some e =>
    if e = ['p', 'n', 'g'] then .ok .png
    else if e = ['j', 'p', 'g'] ∨ e = ['j', 'p', 'e', 'g'] then .ok .jpeg
    else if e = ['b', 'm', 'p'] then .ok .bmp
    else if e = ['g', 'i', 'f'] then .ok .gif
    else if e = ['t', 'i', 'f', 'f'] then .ok .tiff
    else if e = ['i', 'c', 'o'] then .ok .ico
    else if e = ['t', 'g', 'a'] then .ok .tga
    else if e = ['w', 'e', 'b', 'p'] then .ok .webp
    else .error "Unsupported or missing output image format extension."
  | none => .error "Unsupported or missing output image format extension."

/-- Full pure core of `decode_image`: pixel reconstruction (steps 1–8)
followed by output-format determination (step 9), in source order. -/
def decode_image (file : List Nat) (decompress : List Nat → Option (List Nat))
    (output_ext : Option (List Char)) :
    Except String (DynamicImage × ImageFormat) := do
  let img ← decode_image_pixels file decompress
  let fmt ← output_format output_ext
  pure (img, fmt)

/-! ### Helper lemmas about `convert_rgba_to_rgb` -/

theorem convert_nil : convert_rgba_to_rgb [] = [] := rfl

theorem convert_cons4 (a b c d : Nat) (t : List Nat) :
    convert_rgba_to_rgb (a :: b :: c :: d :: t) =
      a :: b :: c :: convert_rgba_to_rgb t := by
  simp [convert_rgba_to_rgb, chunks4, flatMapTake3, List.take]

theorem convert_length :
    ∀ l : List Nat,
      (convert_rgba_to_rgb l).length = 3 * (l.length / 4) + min (l.length % 4) 3
  | [] => by simp [convert_rgba_to_rgb, chunks4, flatMapTake3]
  | [a] => by simp [convert_rgba_to_rgb, chunks4, flatMapTake3]
  | [a, b] => by simp [convert_rgba_to_rgb, chunks4, flatMapTake3]
  | [a, b, c] => by simp [convert_rgba_to_rgb, chunks4, flatMapTake3]
  | a :: b :: c :: d :: t => by
    have ih := convert_length t
    rw [convert_cons4]
    simp only [List.length_cons]
    have h4 : t.length + 1 + 1 + 1 + 1 = t.length + 4 := by omega
    rw [h4]
    omega

theorem convert_decomp :
    ∀ l : List Nat,
      convert_rgba_to_rgb l =
        convert_rgba_to_rgb (l.take (4 * (l.length / 4))) ++
          (l.drop (4 * (l.length / 4))).take 3
  | [] => by simp [convert_nil]
  | [a] => by simp [convert_rgba_to_rgb, chunks4, flatMapTake3]
  | [a, b] => by simp [convert_rgba_to_rgb, chunks4, flatMapTake3]
  | [a, b, c] => by simp [convert_rgba_to_rgb, chunks4, flatMapTake3]
  | a :: b :: c :: d :: t => by
    have ih := convert_decomp t
    simp only [List.length_cons]
    have e : 4 * ((t.length + 1 + 1 + 1 + 1) / 4) = 4 * (t.length / 4) + 1 + 1 + 1 + 1 := by
      omega
    rw [e]
    simp only [List.take_succ_cons, List.drop_succ_cons, convert_cons4,
      List.cons_append]
    rw [ih]

/-! ### Helper lemmas about the header and `decode_image_pixels` -/

theorem fromBe32_toBe32 (w : Nat) (hw : w < 4294967296) :
    fromBe32 (w / 16777216 % 256) (w / 65536 % 256) (w / 256 % 256) (w % 256) = w := by
  unfold fromBe32
  omega

theorem qpHeader_eq (w h ch cm : Nat) :
    qpHeader w h ch cm =
      [81, 80, 73, 77, w / 16777216 % 256, w / 65536 % 256, w / 256 % 256,
       w % 256, h / 16777216 % 256, h / 65536 % 256, h / 256 % 256, h % 256,
       ch, cm] := rfl

theorem qpHeader_take4 (w h ch cm : Nat) :
    (qpHeader w h ch cm).take 4 = MAGIC := rfl

theorem qpHeader_getD4 (w h ch cm : Nat) :
    (qpHeader w h ch cm).getD 4 0 = w / 16777216 % 256 := rfl

theorem qpHeader_getD5 (w h ch cm : Nat) :
    (qpHeader w h ch cm).getD 5 0 = w / 65536 % 256 := rfl

theorem qpHeader_getD6 (w h ch cm : Nat) :
    (qpHeader w h ch cm).getD 6 0 = w / 256 % 256 := rfl

theorem qpHeader_getD7 (w h ch cm : Nat) :
    (qpHeader w h ch cm).getD 7 0 = w % 256 := rfl

theorem qpHeader_getD8 (w h ch cm : Nat) :
    (qpHeader w h ch cm).getD 8 0 = h / 16777216 % 256 := rfl

theorem qpHeader_getD9 (w h ch cm : Nat) :
    (qpHeader w h ch cm).getD 9 0 = h / 65536 % 256 := rfl

theorem qpHeader_getD10 (w h ch cm : Nat) :
    (qpHeader w h ch cm).getD 10 0 = h / 256 % 256 := rfl

theorem qpHeader_getD11 (w h ch cm : Nat) :
    (qpHeader w h ch cm).getD 11 0 = h % 256 := rfl

theorem qpHeader_getD12 (w h ch cm : Nat) :
    (qpHeader w h ch cm).getD 12 0 = ch := rfl

theorem qpHeader_getD13 (w h ch cm : Nat) :
    (qpHeader w h ch cm).getD 13 0 = cm := rfl

theorem qpHeader_append_length (w h ch cm : Nat) (payload : List Nat) :
    ((qpHeader w h ch cm ++ payload)).length = 14 + payload.length := by
  simp [qpHeader, MAGIC, toBe32]
  omega

theorem qpHeader_append_take14 (w h ch cm : Nat) (payload : List Nat) :
    (qpHeader w h ch cm ++ payload).take 14 = qpHeader w h ch cm := rfl

theorem qpHeader_append_drop14 (w h ch cm : Nat) (payload : List Nat) :
    (qpHeader w h ch cm ++ payload).drop 14 = payload := rfl

theorem imageBufferFromRaw_of_le (channels width height : Nat) (buf : List Nat)
    (h : width * height * channels ≤ buf.length) :
    imageBufferFromRaw channels width height buf = some buf := by
  simp [imageBufferFromRaw, h]

/-- Unfolding of `decode_image_pixels` on a stream whose first 14 bytes are a
well-formed-magic header with in-range dimensions. -/
theorem decode_image_pixels_header (w h ch cm : Nat) (payload : List Nat)
    (decompress : List Nat → Option (List Nat))
    (hw : w < 4294967296) (hh : h < 4294967296) :
    decode_image_pixels (qpHeader w h ch cm ++ payload) decompress =
      if cm ≠ 1 then
        .error ("Unsupported compression method: " ++ toString cm)
      else
        match decompress payload with
        | none => .error "Brotli decompression failed"
        | some decompressed_data =>
          match imageBufferFromRaw 4 w h decompressed_data with
          | none => .error "Failed to reconstruct image from pixel data."
          | some img =>
            match ch with
            | 3 =>
              match imageBufferFromRaw 3 w h
                  (convert_rgba_to_rgb decompressed_data) with
              | none => .error "Failed to create RGB image."
              | some rgb_img => .ok (.imageRgb8 w h rgb_img)
            | 4 => .ok (.imageRgba8 w h img)
            | _ => .error "Unsupported number of channels." := by
  have hlen := qpHeader_append_length w h ch cm payload
  have h1 : ¬((qpHeader w h ch cm ++ payload).length < 14) := by omega
  simp only [decode_image_pixels, qpHeader_append_take14, qpHeader_append_drop14,
    qpHeader_take4, qpHeader_getD4, qpHeader_getD5, qpHeader_getD6, qpHeader_getD7,
    qpHeader_getD8, qpHeader_getD9, qpHeader_getD10, qpHeader_getD11,
    qpHeader_getD12, qpHeader_getD13, COMPRESSION_METHOD_BROTLI]
  rw [if_neg h1]
  rw [if_neg (show ¬(MAGIC ≠ MAGIC) by simp)]
  rw [fromBe32_toBe32 w hw, fromBe32_toBe32 h hh]

/-- Behaviour of `decode_image_pixels` on a well-formed stream: correct magic,
method byte 1, payload decompressing to exactly `width * height * 4` bytes.
The outcome depends only on the channels byte. -/
theorem decode_image_pixels_wellformed (w h ch : Nat) (payload buf : List Nat)
    (decompress : List Nat → Option (List Nat))
    (hw : w < 4294967296) (hh : h < 4294967296)
    (hd : decompress payload = some buf) (hlen : buf.length = w * h * 4) :
    (ch = 3 → decode_image_pixels (qpHeader w h ch 1 ++ payload) decompress =
        .ok (.imageRgb8 w h (convert_rgba_to_rgb buf))) ∧
    (ch = 4 → decode_image_pixels (qpHeader w h ch 1 ++ payload) decompress =
        .ok (.imageRgba8 w h buf)) ∧
    (ch ≠ 3 → ch ≠ 4 → decode_image_pixels (qpHeader w h ch 1 ++ payload) decompress =
        .error "Unsupported number of channels.") := by
  have hrgba : imageBufferFromRaw 4 w h buf = some buf :=
    imageBufferFromRaw_of_le 4 w h buf (by omega)
  have hrgb : imageBufferFromRaw 3 w h (convert_rgba_to_rgb buf) =
      some (convert_rgba_to_rgb buf) := by
    apply imageBufferFromRaw_of_le
    rw [convert_length, hlen]
    omega
  refine ⟨?_, ?_, ?_⟩
  · intro h3
    subst h3
    rw [decode_image_pixels_header w h 3 1 payload decompress hw hh]
    simp [hd, hrgba, hrgb]
  · intro h4
    subst h4
    rw [decode_image_pixels_header w h 4 1 payload decompress hw hh]
    simp [hd, hrgba]
  · intro h3 h4
    rw [decode_image_pixels_header w h ch 1 payload decompress hw hh]
    rw [if_neg (by simp)]
    simp only [hd, hrgba]

/-! ### Claim theorems -/

/-- Claim C6 — RGBA-to-RGB conversion correctness: on an input of length
`4 * n`, `convert_rgba_to_rgb` returns `3 * n` bytes, and for every pixel
`i < n` and component `j < 3` the output byte at `3 * i + j` is the input byte
at `4 * i + j`: a pure, order-preserving transform losing only every 4th
(alpha) byte. -/
theorem convert_rgba_to_rgb_correct (l : List Nat) (n : Nat)
    (hlen : l.length = 4 * n) :
    (convert_rgba_to_rgb l).length = 3 * n ∧
      ∀ i, i < n → ∀ j, j < 3 →
        (convert_rgba_to_rgb l)[3 * i + j]? = l[4 * i + j]? := by
  induction n generalizing l with
  | zero =>
    have hnil : l = [] := List.eq_nil_of_length_eq_zero (by omega)
    subst hnil
    simp [convert_nil]
  | succ n ih =>
    rcases l with _ | ⟨a, l⟩
    · simp only [List.length_nil] at hlen; omega
    rcases l with _ | ⟨b, l⟩
    · simp only [List.length_cons, List.length_nil] at hlen; omega
    rcases l with _ | ⟨c, l⟩
    · simp only [List.length_cons, List.length_nil] at hlen; omega
    rcases l with _ | ⟨d, t⟩
    · simp only [List.length_cons, List.length_nil] at hlen; omega
    have hlen' : t.length = 4 * n := by
      simp only [List.length_cons] at hlen; omega
    obtain ⟨ihl, ihi⟩ := ih t hlen'
    rw [convert_cons4]
    constructor
    · simp only [List.length_cons, ihl]; omega
    · intro i hi j hj
      rcases i with _ | i
      · interval_cases j <;> simp
      · have e3 : 3 * (i + 1) + j = 3 * i + j + 1 + 1 + 1 := by ring
        have e4 : 4 * (i + 1) + j = 4 * i + j + 1 + 1 + 1 + 1 := by ring
        rw [e3, e4]
        simp only [List.getElem?_cons_succ]
        exact ihi i (by omega) j hj

theorem convert_rgba_to_rgb_correct_witness :
    (convert_rgba_to_rgb [1, 2, 3, 4, 5, 6, 7, 8]).length = 3 * 2 ∧
      ∀ i, i < 2 → ∀ j, j < 3 →
        (convert_rgba_to_rgb [1, 2, 3, 4, 5, 6, 7, 8])[3 * i + j]? =
          ([1, 2, 3, 4, 5, 6, 7, 8] : List Nat)[4 * i + j]? :=
  convert_rgba_to_rgb_correct [1, 2, 3, 4, 5, 6, 7, 8] 2 (by decide)

/-- Claim C10 — implicit edge case of the RGBA-to-RGB helper: on an input
whose length `n` is not a multiple of 4, `convert_rgba_to_rgb` is still total
and returns `3 * (n / 4) + min (n % 4) 3` bytes; the trailing partial group of
`n % 4` bytes contributes its first `min (n % 4, 3)` bytes rather than being
dropped. -/
theorem convert_rgba_to_rgb_partial (l : List Nat) (_h : l.length % 4 ≠ 0) :
    (convert_rgba_to_rgb l).length = 3 * (l.length / 4) + min (l.length % 4) 3 ∧
    convert_rgba_to_rgb l =
      convert_rgba_to_rgb (l.take (4 * (l.length / 4))) ++
        (l.drop (4 * (l.length / 4))).take 3 :=
  ⟨convert_length l, convert_decomp l⟩

theorem convert_rgba_to_rgb_partial_witness :
    (convert_rgba_to_rgb [1, 2, 3, 4, 5, 6]).length =
      3 * (([1, 2, 3, 4, 5, 6] : List Nat).length / 4) +
        min (([1, 2, 3, 4, 5, 6] : List Nat).length % 4) 3 ∧
    convert_rgba_to_rgb [1, 2, 3, 4, 5, 6] =
      convert_rgba_to_rgb
          (([1, 2, 3, 4, 5, 6] : List Nat).take
            (4 * (([1, 2, 3, 4, 5, 6] : List Nat).length / 4))) ++
        (([1, 2, 3, 4, 5, 6] : List Nat).drop
          (4 * (([1, 2, 3, 4, 5, 6] : List Nat).length / 4))).take 3 :=
  convert_rgba_to_rgb_partial [1, 2, 3, 4, 5, 6] (by decide)

/-- Claim C7 — concrete header layout: encoding a 2-by-1 fully-opaque red
image (RGBA bytes FF 00 00 FF FF 00 00 FF) produces 51 50 49 4D 00 00 00 02
00 00 00 01 04 01 followed by the compressed form of those 8 pixel bytes,
whatever the compressor is. -/
theorem concrete_header_layout (compress : List Nat → List Nat) :
    encode_image 2 1 [255, 0, 0, 255, 255, 0, 0, 255] compress =
      [81, 80, 73, 77, 0, 0, 0, 2, 0, 0, 0, 1, 4, 1] ++
        compress [255, 0, 0, 255, 255, 0, 0, 255] := rfl

/-- Claim C8 — encoder channel convention: for every image, the encoder
writes a header whose Channels byte (offset 12) is 4 and whose
CompressionMethod byte (offset 13) is 1; the first 14 output bytes are the
header for channels 4, method 1. -/
theorem encoder_channel_convention (width height : Nat) (pixel_data : List Nat)
    (compress : List Nat → List Nat) :
    (encode_image width height pixel_data compress).getD 12 0 = 4 ∧
    (encode_image width height pixel_data compress).getD 13 0 = 1 ∧
    (encode_image width height pixel_data compress).take 14 =
      qpHeader width height 4 1 :=
  ⟨rfl, rfl, rfl⟩

/-- Claim C1 — round-trip identity: for every image of positive in-range
dimensions whose RGBA8 buffer the raster codec produced (so its length is
`width * height * 4`), and any compressor pair with
`decompress (compress x) = x`, decoding the stream produced by the encoder
reproduces exactly the original RGBA8 pixel buffer. -/
theorem roundtrip_identity (width height : Nat) (pixel_data : List Nat)
    (compress : List Nat → List Nat) (decompress : List Nat → Option (List Nat))
    (_hw0 : 0 < width) (_hh0 : 0 < height)
    (hw : width < 4294967296) (hh : height < 4294967296)
    (hpix : pixel_data.length = width * height * 4)
    (hinv : decompress (compress pixel_data) = some pixel_data) :
    decode_image_pixels (encode_image width height pixel_data compress)
        decompress = .ok (.imageRgba8 width height pixel_data) := by
  have h := (decode_image_pixels_wellformed width height 4 (compress pixel_data)
    pixel_data decompress hw hh hinv hpix).2.1 rfl
  simpa [encode_image, COMPRESSION_METHOD_BROTLI] using h

theorem roundtrip_identity_witness :
    decode_image_pixels (encode_image 1 1 [10, 20, 30, 40] (fun l => l))
        (fun l => some l) = .ok (.imageRgba8 1 1 [10, 20, 30, 40]) :=
  roundtrip_identity 1 1 [10, 20, 30, 40] (fun l => l) (fun l => some l)
    (by decide) (by decide) (by decide) (by decide) (by decide) rfl

/-- Claim C2 — the code side of the size-consistency claim: a stream with a
valid header for a 1-by-1 image whose payload decompresses to 5 bytes (one
more than `width * height * 4 = 4`) is accepted by `decode_image_pixels`, not
rejected: `ImageBuffer::from_raw` only requires the container to hold at
least `width * height * 4` samples, so an over-long decompressed payload is
silently accepted, contradicting the claim that decode must fail whenever the
length is not exactly `width * height * 4`. -/
theorem oversize_payload_accepted :
    decode_image_pixels (qpHeader 1 1 4 1 ++ [9, 9, 9, 9, 9]) (fun l => some l) =
      .ok (.imageRgba8 1 1 [9, 9, 9, 9, 9]) := rfl

/-- Claim C3 — header rejection: every input of at least 14 bytes whose first
4 bytes differ from "QPIM" fails with the magic-number format error, for
every remaining content and every decompressor (no further processing). -/
theorem magic_rejection (file : List Nat)
    (decompress : List Nat → Option (List Nat))
    (hlen : 14 ≤ file.length) (hmagic : file.take 4 ≠ MAGIC) :
    decode_image_pixels file decompress =
      .error "Invalid QP image file: Incorrect magic number." := by
  have htt : (file.take 14).take 4 = file.take 4 := by
    simp [List.take_take]
  simp only [decode_image_pixels, htt]
  rw [if_neg (by omega), if_pos hmagic]

theorem magic_rejection_witness :
    decode_image_pixels [0, 0, 0, 0, 0, 0, 0, 0, 0, 0, 0, 0, 0, 0]
        (fun l => some l) =
      .error "Invalid QP image file: Incorrect magic number." :=
  magic_rejection [0, 0, 0, 0, 0, 0, 0, 0, 0, 0, 0, 0, 0, 0] (fun l => some l)
    (by decide) (by decide)

/-- Claim C4 — compression-method rejection: a stream with correct magic and
in-range dimensions whose method byte (offset 13) is not 1 fails with the
unsupported-compression-method error, for every payload and every
decompressor (the payload is never decompressed). -/
theorem method_rejection (w h ch cm : Nat) (payload : List Nat)
    (decompress : List Nat → Option (List Nat))
    (hw : w < 4294967296) (hh : h < 4294967296) (_hcm256 : cm < 256)
    (hcm : cm ≠ 1) :
    decode_image_pixels (qpHeader w h ch cm ++ payload) decompress =
      .error ("Unsupported compression method: " ++ toString cm) := by
  rw [decode_image_pixels_header w h ch cm payload decompress hw hh,
    if_pos hcm]

theorem method_rejection_witness :
    decode_image_pixels (qpHeader 0 0 4 2 ++ [1, 2, 3]) (fun l => some l) =
      .error ("Unsupported compression method: " ++ toString 2) :=
  method_rejection 0 0 4 2 [1, 2, 3] (fun l => some l) (by decide) (by decide)
    (by decide) (by decide)

/-- Claim C5 — channel validity: on a stream that passes the magic and
method checks and whose payload decompresses to exactly
`width * height * 4` bytes, decode succeeds when the channels byte is 4
(RGBA buffer used directly) or 3 (alpha dropped), and fails with the
unsupported-channel error for every other channels value. -/
theorem channel_validity (w h ch : Nat) (payload buf : List Nat)
    (decompress : List Nat → Option (List Nat))
    (hw : w < 4294967296) (hh : h < 4294967296) (_hch : ch < 256)
    (hd : decompress payload = some buf) (hlen : buf.length = w * h * 4) :
    (ch = 4 → decode_image_pixels (qpHeader w h ch 1 ++ payload) decompress =
        .ok (.imageRgba8 w h buf)) ∧
    (ch = 3 → decode_image_pixels (qpHeader w h ch 1 ++ payload) decompress =
        .ok (.imageRgb8 w h (convert_rgba_to_rgb buf))) ∧
    (ch ≠ 3 → ch ≠ 4 →
      decode_image_pixels (qpHeader w h ch 1 ++ payload) decompress =
        .error "Unsupported number of channels.") := by
  obtain ⟨h3, h4, hother⟩ :=
    decode_image_pixels_wellformed w h ch payload buf decompress hw hh hd hlen
  exact ⟨h4, h3, hother⟩

theorem channel_validity_witness :
    decode_image_pixels (qpHeader 1 1 5 1 ++ [1, 2, 3, 4]) (fun l => some l) =
      .error "Unsupported number of channels." :=
  (channel_validity 1 1 5 [1, 2, 3, 4] [1, 2, 3, 4] (fun l => some l)
    (by decide) (by decide) (by decide) rfl (by decide)).2.2 (by decide)
    (by decide)

/-- Claim C9 — extension inference: the output format depends only on the
lowercased extension (case-insensitive choice); a lowercased extension equal
to "webp" selects WebP; a missing extension fails; an extension outside the
fixed set {png, jpg, jpeg, bmp, gif, tiff, ico, tga, webp} fails with the
unsupported-format error.  By its type, `output_format` never inspects file
contents. -/
theorem extension_inference :
    (∀ s t : List Char, s.map Char.toLower = t.map Char.toLower →
        output_format (some s) = output_format (some t)) ∧
    (∀ s : List Char, s.map Char.toLower = ['w', 'e', 'b', 'p'] →
        output_format (some s) = .ok .webp) ∧
    (output_format none =
      .error "Unsupported or missing output image format extension.") ∧
    (∀ s : List Char,
        s.map Char.toLower ∉
          ([['p', 'n', 'g'], ['j', 'p', 'g'], ['j', 'p', 'e', 'g'],
            ['b', 'm', 'p'], ['g', 'i', 'f'], ['t', 'i', 'f', 'f'],
            ['i', 'c', 'o'], ['t', 'g', 'a'],
            ['w', 'e', 'b', 'p']] : List (List Char)) →
        output_format (some s) =
          .error "Unsupported or missing output image format extension.") := by
  refine ⟨?_, ?_, rfl, ?_⟩
  · intro s t hst
    simp only [output_format, Option.map_some']
    rw [hst]
  · intro s hs
    simp only [output_format, Option.map_some']
    rw [hs]
    rfl
  · intro s hs
    simp only [List.mem_cons, List.not_mem_nil, or_false, not_or] at hs
    obtain ⟨h1, h2, h3, h4, h5, h6, h7, h8, h9⟩ := hs
    simp only [output_format, Option.map_some']
    simp [h1, h2, h3, h4, h5, h6, h7, h8, h9]

theorem extension_inference_witness :
    output_format (some ['W', 'E', 'B', 'P']) = .ok .webp ∧
    output_format (some ['x', 'y', 'z']) =
      .error "Unsupported or missing output image format extension." :=
  ⟨extension_inference.2.1 ['W', 'E', 'B', 'P'] (by decide),
   extension_inference.2.2.2 ['x', 'y', 'z'] (by decide)⟩

end QP
